import Mathlib

/-!
Verification of the `ndspacker` tool (src/ndspacker/__main__.py) against its
natural-language specification.

The Python source is shallowly embedded:
* byte strings (`bytes`) become `List Nat` (each element a byte value; Python
  guarantees elements below 256, the theorems do not need that bound);
* text becomes `List Char`;
* Python slicing `raw[a:b]` (which silently clamps out-of-range indices)
  becomes `pySlice`;
* `int.from_bytes(_, byteorder="little")` becomes `intFromBytesLE`;
* fallible operations (`int(...)` parsing, dictionary indexing, running an
  external process) return `Option` or are routed through an `Outcome` type;
* the process-level behaviour of `main` is modelled by `mainRun`, a pure
  function from an environment (argv, files on disk, the stdout produced by
  the external `readelf`/`objcopy` tools, the parsed config file) to an
  outcome plus the list of external tool invocations performed, in program
  order.
-/

set_option maxRecDepth 4000

namespace Ndspacker

/-- Python slice `raw[start:stop]` for nonnegative indices: it clamps instead
of failing, so it is the first `stop - start` elements after dropping
`start`. -/
def pySlice (raw : List Nat) (start stop : Nat) : List Nat :=
  (raw.drop start).take (stop - start)

/-- Little-endian interpretation of a byte list, as in
`int.from_bytes(b, byteorder="little")`. The empty list gives 0. -/
def intFromBytesLE : List Nat → Nat
  | [] => 0
  | b :: bs => b + 256 * intFromBytesLE bs

/-- The little-endian u32 field read at byte offset `off`, as the source does
with `int.from_bytes(raw_rom[off : off + 4], byteorder="little")`.  On a
truncated input the slice is shorter than 4 bytes and the value is read from
whatever bytes exist. -/
def leU32At (raw : List Nat) (off : Nat) : Nat :=
  intFromBytesLE (pySlice raw off (off + 4))

/-- Embedding of `read_arm7_from_rom` (lines 68-77): entrypoint from offset
0x34, blob from the range given by the u32 fields at 0x30 (offset) and 0x3C
(size). -/
def read_arm7_from_rom (raw_rom : List Nat) : Nat × List Nat :=
  (leU32At raw_rom 0x34,
    pySlice raw_rom (leU32At raw_rom 0x30) (leU32At raw_rom 0x30 + leU32At raw_rom 0x3C))

theorem length_pySlice (raw : List Nat) (a b : Nat) :
    (pySlice raw a b).length = min (b - a) (raw.length - a) := by
  simp [pySlice, List.length_take, List.length_drop]

theorem getElem?_pySlice (raw : List Nat) (a b i : Nat) :
    (pySlice raw a b)[i]? = if i < b - a then raw[a + i]? else none := by
  simp [pySlice, List.getElem?_take, List.getElem?_drop]

/-- Helper: a 4-byte aligned read out of an explicitly decomposed list. -/
theorem pySlice_of_decomp (pre mid post : List Nat) (n m : Nat)
    (hpre : pre.length = n) (hmid : mid.length = m) :
    pySlice (pre ++ (mid ++ post)) n (n + m) = mid := by
  unfold pySlice
  rw [List.drop_left' hpre, Nat.add_sub_cancel_left, List.take_left' hmid]

/-- C1: for a well-formed ROM image (length at least 0x40, and the encoded
offset/size fields describing a range inside the buffer),
`read_arm7_from_rom` returns the little-endian u32 at 0x34 as entrypoint and
exactly the byte range `[rom_offset, rom_offset + rom_size)` as blob, where
`rom_offset` is the little-endian u32 at 0x30 and `rom_size` the one at
0x3C. -/
theorem c1_read_arm7_exact (raw : List Nat) (_h40 : 0x40 ≤ raw.length)
    (hfit : leU32At raw 0x30 + leU32At raw 0x3C ≤ raw.length) :
    (read_arm7_from_rom raw).1 = leU32At raw 0x34 ∧
    (read_arm7_from_rom raw).2.length = leU32At raw 0x3C ∧
    ∀ i < leU32At raw 0x3C,
      (read_arm7_from_rom raw).2[i]? = raw[leU32At raw 0x30 + i]? := by
  refine ⟨rfl, ?_, ?_⟩
  · rw [show (read_arm7_from_rom raw).2 =
        pySlice raw (leU32At raw 0x30) (leU32At raw 0x30 + leU32At raw 0x3C) from rfl]
    rw [length_pySlice]
    omega
  · intro i hi
    rw [show (read_arm7_from_rom raw).2 =
        pySlice raw (leU32At raw 0x30) (leU32At raw 0x30 + leU32At raw 0x3C) from rfl]
    rw [getElem?_pySlice]
    simp only [Nat.add_sub_cancel_left]
    rw [if_pos hi]

/-- The concrete 0x10000-byte buffer of claim C1: offset field 0x4000,
entrypoint field 0x02380000, size field 0x100, and the payload range
[0x4000, 0x4100) filled with byte 7. -/
def c1buf : List Nat :=
  (List.replicate 48 0 ++
      [0, 64, 0, 0, 0, 0, 56, 2, 0, 0, 0, 0, 0, 1, 0, 0] ++
      List.replicate 16320 0) ++
    (List.replicate 256 7 ++ List.replicate 48896 0)

theorem c1buf_length : c1buf.length = 65536 := by
  unfold c1buf
  rw [List.length_append, List.length_append, List.length_append, List.length_append,
    List.length_replicate, List.length_replicate, List.length_replicate, List.length_replicate]
  norm_num

theorem c1buf_off : leU32At c1buf 0x30 = 16384 := by
  have h : c1buf = List.replicate 48 (0 : Nat) ++
      ([0, 64, 0, 0] ++
        ([0, 0, 56, 2, 0, 0, 0, 0, 0, 1, 0, 0] ++ List.replicate 16320 0 ++
          (List.replicate 256 7 ++ List.replicate 48896 0))) := by
    unfold c1buf
    simp only [List.append_assoc, List.cons_append, List.nil_append]
  rw [leU32At, h, pySlice_of_decomp _ _ _ 48 4 (by rw [List.length_replicate]) (by norm_num)]
  decide

theorem c1buf_ep : leU32At c1buf 0x34 = 0x02380000 := by
  have h : c1buf = (List.replicate 48 (0 : Nat) ++ [0, 64, 0, 0]) ++
      ([0, 0, 56, 2] ++
        ([0, 0, 0, 0, 0, 1, 0, 0] ++ List.replicate 16320 0 ++
          (List.replicate 256 7 ++ List.replicate 48896 0))) := by
    unfold c1buf
    simp only [List.append_assoc, List.cons_append, List.nil_append]
  rw [leU32At, h, pySlice_of_decomp _ _ _ 52 4
    (by rw [List.length_append, List.length_replicate]; norm_num) (by norm_num)]
  decide

theorem c1buf_size : leU32At c1buf 0x3C = 256 := by
  have h : c1buf = (List.replicate 48 (0 : Nat) ++ [0, 64, 0, 0, 0, 0, 56, 2, 0, 0, 0, 0]) ++
      ([0, 1, 0, 0] ++
        (List.replicate 16320 0 ++
          (List.replicate 256 7 ++ List.replicate 48896 0))) := by
    unfold c1buf
    simp only [List.append_assoc, List.cons_append, List.nil_append]
  rw [leU32At, h, pySlice_of_decomp _ _ _ 60 4
    (by rw [List.length_append, List.length_replicate]; norm_num) (by norm_num)]
  decide

/-- Witness for C1: on the synthetic 0x10000-byte buffer with offset=0x4000,
size=0x100, entrypoint=0x02380000 the reader yields
`(0x02380000, buffer[0x4000:0x4100])`, the payload being 0x100 copies of
byte 7. -/
theorem c1_read_arm7_exact_witness :
    read_arm7_from_rom c1buf = (0x02380000, List.replicate 256 7) := by
  have _h := c1_read_arm7_exact c1buf (by rw [c1buf_length]; norm_num)
    (by rw [c1buf_off, c1buf_size, c1buf_length]; norm_num)
  have h2 : pySlice c1buf 16384 (16384 + 256) = List.replicate 256 7 := by
    have hsh : c1buf = (List.replicate 48 (0 : Nat) ++
        [0, 64, 0, 0, 0, 0, 56, 2, 0, 0, 0, 0, 0, 1, 0, 0] ++ List.replicate 16320 0) ++
        (List.replicate 256 7 ++ List.replicate 48896 0) := rfl
    rw [hsh, pySlice_of_decomp _ _ _ 16384 256
      (by rw [List.length_append, List.length_append, List.length_replicate,
        List.length_replicate]; norm_num)
      (by rw [List.length_replicate])]
  simp only [read_arm7_from_rom, c1buf_off, c1buf_size, c1buf_ep, h2]

/-- C2: the reader is total.  For every byte string, in particular one shorter
than 0x40 bytes or one whose encoded offset/size range overflows the input,
it produces the entrypoint read from whatever bytes exist at offset 0x34
(zero when no such bytes exist) and a silently truncated, possibly empty,
blob, with no error. -/
theorem c2_read_arm7_total (raw : List Nat) :
    (read_arm7_from_rom raw).1 = leU32At raw 0x34 ∧
    (raw.length ≤ 0x34 → (read_arm7_from_rom raw).1 = 0) ∧
    (read_arm7_from_rom raw).2.length =
      min (leU32At raw 0x3C) (raw.length - leU32At raw 0x30) ∧
    ∀ i : Nat, (read_arm7_from_rom raw).2[i]? =
      if i < leU32At raw 0x3C then raw[leU32At raw 0x30 + i]? else none := by
  refine ⟨rfl, ?_, ?_, ?_⟩
  · intro hshort
    have hdrop : raw.drop 0x34 = [] := by
      apply List.eq_nil_of_length_eq_zero
      rw [List.length_drop]
      omega
    show intFromBytesLE (pySlice raw 0x34 (0x34 + 4)) = 0
    rw [pySlice, hdrop]
    rfl
  · rw [show (read_arm7_from_rom raw).2 =
        pySlice raw (leU32At raw 0x30) (leU32At raw 0x30 + leU32At raw 0x3C) from rfl]
    rw [length_pySlice]
    omega
  · intro i
    rw [show (read_arm7_from_rom raw).2 =
        pySlice raw (leU32At raw 0x30) (leU32At raw 0x30 + leU32At raw 0x3C) from rfl]
    rw [getElem?_pySlice]
    simp only [Nat.add_sub_cancel_left]

/-! Model of Python text primitives used by `main`: `str.strip`, `str.lower`,
`str.splitlines`, `str.split(":", 1)`, and `int(s)` / `int(s, 16)` parsing
(ASCII fragment; `readelf` output is ASCII). -/

/-- Python whitespace characters stripped by `str.strip()` (ASCII fragment). -/
def pyWhitespace (c : Char) : Bool :=
  c.toNat = 32 || c.toNat = 9 || c.toNat = 10 || c.toNat = 13 || c.toNat = 11 || c.toNat = 12

/-- Left part of Python `str.strip()`. -/
def pyStripLeft (l : List Char) : List Char :=
  l.dropWhile pyWhitespace

/-- Right part of Python `str.strip()`: removes the longest whitespace
suffix. -/
def pyStripRight : List Char → List Char
  | [] => []
  | c :: rest =>
    let r := pyStripRight rest
    if r = [] ∧ pyWhitespace c then [] else c :: r

/-- Python `str.strip()`. -/
def pyStrip (l : List Char) : List Char :=
  pyStripRight (pyStripLeft l)

/-- ASCII `str.lower()`. -/
def asciiLower (c : Char) : Char :=
  if 65 ≤ c.toNat ∧ c.toNat ≤ 90 then Char.ofNat (c.toNat + 32) else c

/-- Value of one digit character under `int(_, base)`: ASCII digits and
letters, rejected when their value reaches the base. -/
def digitVal? (base : Nat) (c : Char) : Option Nat :=
  let v : Option Nat :=
    if 48 ≤ c.toNat ∧ c.toNat ≤ 57 then some (c.toNat - 48)
    else if 97 ≤ c.toNat ∧ c.toNat ≤ 122 then some (c.toNat - 97 + 10)
    else if 65 ≤ c.toNat ∧ c.toNat ≤ 90 then some (c.toNat - 65 + 10)
    else none
  match v with
  | some d => if d < base then some d else none
  | none => none

/-- Digit-run parser for Python `int`: digits with single underscores allowed
between digits (`afterU` records that the previous character was an
underscore, which must be followed by a digit). -/
def parseDigitsAux (base acc : Nat) (afterU : Bool) : List Char → Option Nat
  | [] => if afterU then none else some acc
  | c :: rest =>
    if c = '_' then
      if afterU then none else parseDigitsAux base acc true rest
    else
      match digitVal? base c with
      | some d => parseDigitsAux base (acc * base + d) false rest
      | none => none

/-- A full digit group of Python `int`: nonempty, not starting with an
underscore. -/
def parseDigitsCore (base : Nat) (l : List Char) : Option Nat :=
  match l with
  | [] => none
  | c :: _ => if c = '_' then none else parseDigitsAux base 0 false l

/-- Digits after a `0x` prefix: nonempty, and Python allows one underscore
directly after the prefix. -/
def parseHexTail (l : List Char) : Option Nat :=
  match l with
  | [] => none
  | _ => parseDigitsAux 16 0 false l

/-- Body of `int(s, 16)` after sign removal: optional `0x`/`0X` prefix. -/
def parseHexBody (l : List Char) : Option Nat :=
  match l with
  | c0 :: c1 :: rest =>
    if c0 = '0' ∧ (c1 = 'x' ∨ c1 = 'X') then parseHexTail rest
    else parseDigitsCore 16 (c0 :: c1 :: rest)
  | _ => parseDigitsCore 16 l

/-- Sign handling of Python `int`: one optional leading `+` or `-` after
whitespace stripping; returns (negative, rest). -/
def pySignSplit (l : List Char) : Bool × List Char :=
  match l with
  | c :: rest =>
    if c = '-' then (true, rest)
    else if c = '+' then (false, rest)
    else (false, l)
  | [] => (false, [])

/-- Python `int(s, 16)` on character lists (ASCII fragment). -/
def pyIntFromHex (l : List Char) : Option Int :=
  (parseHexBody (pySignSplit (pyStrip l)).2).map
    (fun n => if (pySignSplit (pyStrip l)).1 then -(Int.ofNat n) else Int.ofNat n)

/-- Python `int(s)` (base 10, no prefix) on character lists (ASCII
fragment). -/
def pyIntFromDec (l : List Char) : Option Int :=
  (parseDigitsCore 10 (pySignSplit (pyStrip l)).2).map
    (fun n => if (pySignSplit (pyStrip l)).1 then -(Int.ofNat n) else Int.ofNat n)

/-- The ARM9 entrypoint extraction of line 125:
`int(arm9_headers["entry_point_address"][2:], 16)` — the first two characters
are dropped unconditionally, the rest is parsed as hexadecimal. -/
def arm9EntryOfValue (v : List Char) : Option Int :=
  pyIntFromHex (v.drop 2)

/-- The ARM7 entrypoint extraction of line 150:
`int(get_elf_headers(arm7_image)["entry_point_address"])` — the whole value
is parsed as a base-10 integer, with no prefix stripping. -/
def arm7EntryOfValue (v : List Char) : Option Int :=
  pyIntFromDec v

/-- Numeric value of a hexadecimal digit string. -/
def hexListVal (ds : List Char) : Nat :=
  ds.foldl (fun a c => a * 16 + (digitVal? 16 c).getD 0) 0

/-- Numeric value of a decimal digit string. -/
def decListVal (ds : List Char) : Nat :=
  ds.foldl (fun a c => a * 10 + (digitVal? 10 c).getD 0) 0

theorem digitVal?_underscore (base : Nat) : digitVal? base '_' = none := rfl

theorem not_whitespace_of_digit {base : Nat} {c : Char}
    (h : (digitVal? base c).isSome) : pyWhitespace c = false := by
  unfold digitVal? at h
  unfold pyWhitespace
  split at h
  · rename_i hr; simp only [Bool.or_eq_false_iff, decide_eq_false_iff_not]; omega
  · split at h
    · rename_i hr; simp only [Bool.or_eq_false_iff, decide_eq_false_iff_not]; omega
    · split at h
      · rename_i hr; simp only [Bool.or_eq_false_iff, decide_eq_false_iff_not]; omega
      · simp at h

theorem not_sign_of_digit {base : Nat} {c : Char}
    (h : (digitVal? base c).isSome) : c ≠ '-' ∧ c ≠ '+' ∧ c ≠ '_' := by
  refine ⟨?_, ?_, ?_⟩ <;> intro he <;> subst he <;> simp [digitVal?] at h

theorem pyStripLeft_eq_self {l : List Char} (h : ∀ c ∈ l, pyWhitespace c = false) :
    pyStripLeft l = l := by
  cases l with
  | nil => rfl
  | cons c rest =>
    unfold pyStripLeft
    rw [List.dropWhile_cons, h c (List.mem_cons_self c rest)]
    simp

theorem pyStripRight_eq_self {l : List Char} (h : ∀ c ∈ l, pyWhitespace c = false) :
    pyStripRight l = l := by
  induction l with
  | nil => rfl
  | cons c rest ih =>
    unfold pyStripRight
    rw [ih (fun d hd => h d (List.mem_cons_of_mem c hd))]
    rw [h c (List.mem_cons_self c rest)]
    simp

theorem pyStrip_eq_self {l : List Char} (h : ∀ c ∈ l, pyWhitespace c = false) :
    pyStrip l = l := by
  unfold pyStrip
  rw [pyStripLeft_eq_self h, pyStripRight_eq_self h]

theorem pyStripRight_cons_of_not_ws {c : Char} {l : List Char}
    (h : pyWhitespace c = false) : pyStripRight (c :: l) = c :: pyStripRight l := by
  show (if pyStripRight l = [] ∧ pyWhitespace c = true then [] else c :: pyStripRight l) =
    c :: pyStripRight l
  rw [h]
  simp

/-- A digit run with no underscores evaluates to its positional value. -/
theorem parseDigitsAux_all_digits (base : Nat) :
    ∀ (l : List Char) (acc : Nat), (∀ c ∈ l, (digitVal? base c).isSome) →
      parseDigitsAux base acc false l =
        some (l.foldl (fun a c => a * base + (digitVal? base c).getD 0) acc) := by
  intro l
  induction l with
  | nil => intro acc _; rfl
  | cons c rest ih =>
    intro acc h
    have hc : (digitVal? base c).isSome := h c (List.mem_cons_self c rest)
    have hne : c ≠ '_' := (not_sign_of_digit hc).2.2
    unfold parseDigitsAux
    rw [if_neg hne]
    obtain ⟨d, hd⟩ := Option.isSome_iff_exists.mp hc
    rw [hd]
    simp only [List.foldl_cons, hd, Option.getD_some]
    exact ih (acc * base + d) (fun x hx => h x (List.mem_cons_of_mem c hx))

/-- A successful digit-run parse contains only digits and underscores. -/
theorem parseDigitsAux_mem_of_some (base : Nat) :
    ∀ (l : List Char) (acc : Nat) (afterU : Bool) (n : Nat),
      parseDigitsAux base acc afterU l = some n →
      ∀ c ∈ l, c = '_' ∨ (digitVal? base c).isSome := by
  intro l
  induction l with
  | nil => intro acc afterU n _ c hc; cases hc
  | cons c0 rest ih =>
    intro acc afterU n hp c hc
    unfold parseDigitsAux at hp
    by_cases h0 : c0 = '_'
    · rw [if_pos h0] at hp
      cases afterU with
      | true => simp at hp
      | false =>
        rcases List.mem_cons.mp hc with he | hm
        · exact Or.inl (he.trans h0)
        · exact ih acc true n hp c hm
    · rw [if_neg h0] at hp
      cases hd : digitVal? base c0 with
      | none => rw [hd] at hp; simp at hp
      | some d =>
        rw [hd] at hp
        rcases List.mem_cons.mp hc with he | hm
        · subst he; exact Or.inr (by rw [hd]; rfl)
        · exact ih (acc * base + d) false n hp c hm

theorem hexFoldl_zeros (k : Nat) :
    (List.replicate k '0').foldl (fun a c => a * 16 + (digitVal? 16 c).getD 0) 0 = 0 := by
  induction k with
  | zero => rfl
  | succ k ih =>
    rw [List.replicate_succ, List.foldl_cons,
      show (0 : Nat) * 16 + (digitVal? 16 '0').getD 0 = 0 from rfl]
    exact ih

/-- C5: for every entry-point-address value of the header dump — a `0x`
prefix, any amount of zero padding, then a nonempty hexadecimal digit
string — the ARM9 entrypoint the program extracts is the numeric value of
those hexadecimal digits, independent of the padding. -/
theorem c5_arm9_entry_hex (k : Nat) (ds : List Char) (hne : ds ≠ [])
    (hhex : ∀ c ∈ ds, (digitVal? 16 c).isSome) :
    arm9EntryOfValue ('0' :: 'x' :: (List.replicate k '0' ++ ds)) =
      some (Int.ofNat (hexListVal ds)) := by
  have hall : ∀ c ∈ List.replicate k '0' ++ ds, (digitVal? 16 c).isSome := by
    intro c hc
    rcases List.mem_append.mp hc with hz | hd
    · rw [List.eq_of_mem_replicate hz]; rfl
    · exact hhex c hd
  have hnws : ∀ c ∈ List.replicate k '0' ++ ds, pyWhitespace c = false :=
    fun c hc => not_whitespace_of_digit (hall c hc)
  obtain ⟨c0, l0, he⟩ : ∃ c0 l0, List.replicate k '0' ++ ds = c0 :: l0 := by
    cases hk : List.replicate k '0' ++ ds with
    | nil =>
      rcases List.append_eq_nil.mp hk with ⟨-, hds⟩
      exact absurd hds hne
    | cons a b => exact ⟨a, b, rfl⟩
  have hc0 : (digitVal? 16 c0).isSome := hall c0 (by rw [he]; exact List.mem_cons_self c0 l0)
  have hfst : (pySignSplit (c0 :: l0)).1 = false := by
    show (if c0 = '-' then ((true, l0) : Bool × List Char)
        else if c0 = '+' then (false, l0) else (false, c0 :: l0)).1 = false
    rw [if_neg (not_sign_of_digit hc0).1, if_neg (not_sign_of_digit hc0).2.1]
  have hsnd : (pySignSplit (c0 :: l0)).2 = c0 :: l0 := by
    show (if c0 = '-' then ((true, l0) : Bool × List Char)
        else if c0 = '+' then (false, l0) else (false, c0 :: l0)).2 = c0 :: l0
    rw [if_neg (not_sign_of_digit hc0).1, if_neg (not_sign_of_digit hc0).2.1]
  have hbody : parseHexBody (c0 :: l0) = parseDigitsCore 16 (c0 :: l0) := by
    cases l0 with
    | nil => rfl
    | cons c1 l1 =>
      have hc1 : (digitVal? 16 c1).isSome := hall c1 (by rw [he]; simp)
      show (if c0 = '0' ∧ (c1 = 'x' ∨ c1 = 'X') then parseHexTail l1
          else parseDigitsCore 16 (c0 :: c1 :: l1)) = parseDigitsCore 16 (c0 :: c1 :: l1)
      rw [if_neg]
      rintro ⟨-, hx | hx⟩ <;> subst hx <;> simp [digitVal?] at hc1
  have hcore : parseDigitsCore 16 (c0 :: l0) =
      some (hexListVal (List.replicate k '0' ++ ds)) := by
    show (if c0 = '_' then none else parseDigitsAux 16 0 false (c0 :: l0)) =
      some (hexListVal (List.replicate k '0' ++ ds))
    rw [if_neg (not_sign_of_digit hc0).2.2, ← he,
      parseDigitsAux_all_digits 16 (List.replicate k '0' ++ ds) 0 hall]
    rfl
  have hval : hexListVal (List.replicate k '0' ++ ds) = hexListVal ds := by
    unfold hexListVal
    rw [List.foldl_append, hexFoldl_zeros]
  show pyIntFromHex (List.replicate k '0' ++ ds) = some (Int.ofNat (hexListVal ds))
  unfold pyIntFromHex
  rw [pyStrip_eq_self hnws, he, hfst, hsnd, hbody, hcore, hval]
  rfl

/-- Witness for C5: the padded value `0x02380000` parses to 37224448
(= 0x2380000), like the unpadded `0x2380000`. -/
theorem c5_arm9_entry_hex_witness :
    arm9EntryOfValue (("0x02380000").data) = some (Int.ofNat 37224448) ∧
    arm9EntryOfValue (("0x2380000").data) = some (Int.ofNat 37224448) := by
  have h1 := c5_arm9_entry_hex 1 (("2380000").data) (by decide) (by decide)
  have h0 := c5_arm9_entry_hex 0 (("2380000").data) (by decide) (by decide)
  constructor
  · have : ("0x02380000").data =
        '0' :: 'x' :: (List.replicate 1 '0' ++ ("2380000").data) := rfl
    rw [this, h1]
    rfl
  · have : ("0x2380000").data =
        '0' :: 'x' :: (List.replicate 0 '0' ++ ("2380000").data) := rfl
    rw [this, h0]
    rfl

theorem pyStripLeft_cons_of_not_ws {c : Char} {l : List Char}
    (h : pyWhitespace c = false) : pyStripLeft (c :: l) = c :: l := by
  unfold pyStripLeft
  rw [List.dropWhile_cons, h]
  simp

theorem mem_dropWhile_of_not {p : Char → Bool} {c : Char} {l : List Char}
    (hmem : c ∈ l) (h : p c = false) : c ∈ l.dropWhile p := by
  induction l with
  | nil => cases hmem
  | cons a rest ih =>
    rw [List.dropWhile_cons]
    by_cases ha : p a = true
    · rw [if_pos ha]
      rcases List.mem_cons.mp hmem with he | hm
      · subst he; rw [h] at ha; cases ha
      · exact ih hm
    · rw [if_neg ha]
      exact hmem

theorem mem_pyStripRight {c : Char} {l : List Char}
    (hmem : c ∈ l) (h : pyWhitespace c = false) : c ∈ pyStripRight l := by
  induction l with
  | nil => cases hmem
  | cons a rest ih =>
    show c ∈ (if pyStripRight rest = [] ∧ pyWhitespace a = true then []
      else a :: pyStripRight rest)
    by_cases hcond : pyStripRight rest = [] ∧ pyWhitespace a = true
    · exfalso
      rcases List.mem_cons.mp hmem with he | hm
      · rw [he] at h
        rw [h] at hcond
        exact Bool.false_ne_true hcond.2
      · have hin := ih hm
        rw [hcond.1] at hin
        cases hin
    · rw [if_neg hcond]
      rcases List.mem_cons.mp hmem with he | hm
      · subst he; exact List.mem_cons_self c (pyStripRight rest)
      · exact List.mem_cons_of_mem a (ih hm)

theorem mem_pyStrip {c : Char} {l : List Char}
    (hmem : c ∈ l) (h : pyWhitespace c = false) : c ∈ pyStrip l :=
  mem_pyStripRight (mem_dropWhile_of_not hmem h) h

theorem parseDigitsCore_mem_of_some (base : Nat) (l : List Char) (n : Nat)
    (h : parseDigitsCore base l = some n) :
    ∀ c ∈ l, c = '_' ∨ (digitVal? base c).isSome := by
  cases l with
  | nil => intro c hc; cases hc
  | cons c0 rest =>
    intro c hc
    by_cases h0 : c0 = '_'
    · exfalso
      have hn : parseDigitsCore base (c0 :: rest) = none := by
        show (if c0 = '_' then none else parseDigitsAux base 0 false (c0 :: rest)) = none
        rw [if_pos h0]
      rw [hn] at h
      cases h
    · have ha : parseDigitsCore base (c0 :: rest) = parseDigitsAux base 0 false (c0 :: rest) := by
        show (if c0 = '_' then none else parseDigitsAux base 0 false (c0 :: rest)) = _
        rw [if_neg h0]
      rw [ha] at h
      exact parseDigitsAux_mem_of_some base (c0 :: rest) 0 false n h c hc

/-- A nonempty string of plain decimal digits parses as a base-10 integer. -/
theorem pyIntFromDec_all_digits (l : List Char) (hne : l ≠ [])
    (h : ∀ c ∈ l, (digitVal? 10 c).isSome) :
    pyIntFromDec l = some (Int.ofNat (decListVal l)) := by
  have hnws : ∀ c ∈ l, pyWhitespace c = false := fun c hc => not_whitespace_of_digit (h c hc)
  obtain ⟨c0, l0, he⟩ : ∃ c0 l0, l = c0 :: l0 := by
    cases l with
    | nil => exact absurd rfl hne
    | cons a b => exact ⟨a, b, rfl⟩
  have hc0 : (digitVal? 10 c0).isSome := h c0 (by rw [he]; exact List.mem_cons_self c0 l0)
  have hfst : (pySignSplit (c0 :: l0)).1 = false := by
    show (if c0 = '-' then ((true, l0) : Bool × List Char)
        else if c0 = '+' then (false, l0) else (false, c0 :: l0)).1 = false
    rw [if_neg (not_sign_of_digit hc0).1, if_neg (not_sign_of_digit hc0).2.1]
  have hsnd : (pySignSplit (c0 :: l0)).2 = c0 :: l0 := by
    show (if c0 = '-' then ((true, l0) : Bool × List Char)
        else if c0 = '+' then (false, l0) else (false, c0 :: l0)).2 = c0 :: l0
    rw [if_neg (not_sign_of_digit hc0).1, if_neg (not_sign_of_digit hc0).2.1]
  have hcore : parseDigitsCore 10 (c0 :: l0) = parseDigitsAux 10 0 false (c0 :: l0) := by
    show (if c0 = '_' then none else parseDigitsAux 10 0 false (c0 :: l0)) = _
    rw [if_neg (not_sign_of_digit hc0).2.2]
  unfold pyIntFromDec
  rw [pyStrip_eq_self hnws, he, hfst, hsnd, hcore,
    parseDigitsAux_all_digits 10 (c0 :: l0) 0 (he ▸ h)]
  rfl

/-- A value starting with the literal prefix `0x` fails to parse in base
10. -/
theorem pyIntFromDec_0x (rest : List Char) : pyIntFromDec ('0' :: 'x' :: rest) = none := by
  have hstrip : pyStrip ('0' :: 'x' :: rest) = '0' :: 'x' :: pyStripRight rest := by
    unfold pyStrip
    rw [pyStripLeft_cons_of_not_ws (by rfl), pyStripRight_cons_of_not_ws (by rfl),
      pyStripRight_cons_of_not_ws (by rfl)]
  unfold pyIntFromDec
  rw [hstrip]
  rfl

/-- A value containing a character that is not part of any base-10 integer
literal (not a decimal digit, not a sign, not an underscore, not whitespace)
fails to parse in base 10. -/
theorem pyIntFromDec_none_of_bad_char (v : List Char) (c : Char)
    (hmem : c ∈ v) (hws : pyWhitespace c = false) (hp : c ≠ '+') (hm : c ≠ '-')
    (hu : c ≠ '_') (hd : digitVal? 10 c = none) : pyIntFromDec v = none := by
  have hst : c ∈ pyStrip v := mem_pyStrip hmem hws
  have hbody : c ∈ (pySignSplit (pyStrip v)).2 := by
    cases ht : pyStrip v with
    | nil => rw [ht] at hst; cases hst
    | cons c1 l1 =>
      rw [ht] at hst
      show c ∈ (if c1 = '-' then ((true, l1) : Bool × List Char)
          else if c1 = '+' then (false, l1) else (false, c1 :: l1)).2
      by_cases h1 : c1 = '-'
      · rw [if_pos h1]
        rcases List.mem_cons.mp hst with he | hm2
        · exact absurd (he.trans h1) hm
        · exact hm2
      · rw [if_neg h1]
        by_cases h2 : c1 = '+'
        · rw [if_pos h2]
          rcases List.mem_cons.mp hst with he | hm2
          · exact absurd (he.trans h2) hp
          · exact hm2
        · rw [if_neg h2]
          exact hst
  unfold pyIntFromDec
  cases hcore : parseDigitsCore 10 (pySignSplit (pyStrip v)).2 with
  | none => rfl
  | some n =>
    exfalso
    rcases parseDigitsCore_mem_of_some 10 _ n hcore c hbody with he | hs
    · exact hu he
    · rw [hd] at hs
      cases hs

/-- C10: the ARM7 entrypoint of a non-`.nds` image is parsed from the entire
`entry_point_address` value as a base-10 integer: a plain decimal digit
string yields its decimal (not hexadecimal) value, while a value with a
literal `0x` prefix, or one containing a character that is not part of a
base-10 integer literal (in particular the hexadecimal letter digits a-f),
fails to parse, which in `main` is an unhandled fatal `ValueError`. -/
theorem c10_arm7_decimal_parse :
    (∀ ds : List Char, ds ≠ [] → (∀ c ∈ ds, (digitVal? 10 c).isSome) →
        arm7EntryOfValue ds = some (Int.ofNat (decListVal ds))) ∧
    (∀ rest : List Char, arm7EntryOfValue ('0' :: 'x' :: rest) = none) ∧
    (∀ (v : List Char) (c : Char), c ∈ v → pyWhitespace c = false →
        c ≠ '+' → c ≠ '-' → c ≠ '_' → digitVal? 10 c = none →
        arm7EntryOfValue v = none) := by
  refine ⟨?_, ?_, ?_⟩
  · intro ds hne h
    exact pyIntFromDec_all_digits ds hne h
  · intro rest
    exact pyIntFromDec_0x rest
  · intro v c h1 h2 h3 h4 h5 h6
    exact pyIntFromDec_none_of_bad_char v c h1 h2 h3 h4 h5 h6

/-- Witness for C10: the value `380000` parses to decimal 380000 (not
0x380000), while `0x380000` and `2a` raise. -/
theorem c10_arm7_decimal_parse_witness :
    arm7EntryOfValue (("380000").data) = some (Int.ofNat 380000) ∧
    arm7EntryOfValue (("0x380000").data) = none ∧
    arm7EntryOfValue (("2a").data) = none := by
  refine ⟨?_, ?_, ?_⟩
  · rw [c10_arm7_decimal_parse.1 (("380000").data) (by decide) (by decide)]
    rfl
  · have he : ("0x380000").data = '0' :: 'x' :: ("380000").data := rfl
    rw [he]
    exact c10_arm7_decimal_parse.2.1 (("380000").data)
  · exact c10_arm7_decimal_parse.2.2 (("2a").data) 'a' (by decide) (by decide)
      (by decide) (by decide) (by decide) (by decide)

/-! Model of `get_elf_headers` (lines 47-65): the textual parsing of the
stdout of `readelf -h`.  The external invocation itself is part of the
`mainRun` model further below; here we model
`result.stdout.splitlines()[1:]` and the per-line key/value extraction. -/

/-- Line-break characters of Python `str.splitlines` (the BMP set used by
CPython; `\r\n` is additionally treated as a single break below). -/
def isLineBreak (c : Char) : Bool :=
  c.toNat = 10 || c.toNat = 13 || c.toNat = 11 || c.toNat = 12 ||
    c.toNat = 28 || c.toNat = 29 || c.toNat = 30 || c.toNat = 133 ||
    c.toNat = 8232 || c.toNat = 8233

/-- Worker for `str.splitlines`, one character at a time: `afterCR` records
that the previous character was a carriage return (so that a following
newline is part of the same `\r\n` break), `cur` is the reversed current
line.  A line is emitted at each break; at the end of input the current line
is emitted only when nonempty, so a trailing break adds no empty line. -/
def pySplitlinesGo (afterCR : Bool) (cur : List Char) : List Char → List (List Char)
  | [] => if cur = [] then [] else [cur.reverse]
  | c :: rest =>
    if afterCR ∧ c = '\n' then pySplitlinesGo false cur rest
    else if c = '\r' then cur.reverse :: pySplitlinesGo true [] rest
    else if isLineBreak c then cur.reverse :: pySplitlinesGo false [] rest
    else pySplitlinesGo false (c :: cur) rest

/-- Python `str.splitlines()`: the empty string gives no lines, a trailing
line break adds no empty final line. -/
def pySplitlines (l : List Char) : List (List Char) :=
  pySplitlinesGo false [] l

/-- Python `line.split(":", 1)` restricted to the two-part case: the text
before the first colon and the text after it, or `none` when the line has no
colon (in the source the two-element unpacking then raises `ValueError`). -/
def splitFirstColon : List Char → Option (List Char × List Char)
  | [] => none
  | c :: rest =>
    if c = ':' then some ([], rest)
    else (splitFirstColon rest).map (fun p => (c :: p.1, p.2))

/-- Assignment `headers[key] = value` on a Python dict modelled as an
insertion-ordered association list: an existing key is overwritten in place,
a new key is appended. -/
def dictInsert {α : Type} (m : List (List Char × α)) (k : List Char) (v : α) :
    List (List Char × α) :=
  if m.any (fun p => decide (p.1 = k)) then
    m.map (fun p => if p.1 = k then (k, v) else p)
  else m ++ [(k, v)]

/-- Dict lookup `m[k]` as an option. -/
def alistLookup {α : Type} : List (List Char × α) → List Char → Option α
  | [], _ => none
  | (k, v) :: rest, key => if k = key then some v else alistLookup rest key

/-- Dict lookup with default, `m.get(k, d)`. -/
def alistLookupD {α : Type} (m : List (List Char × α)) (key : List Char) (d : α) : α :=
  (alistLookup m key).getD d

/-- The key transformation of line 60:
`key.lower().strip().replace(" ", "_")` — lower-case, then strip surrounding
whitespace, then replace remaining spaces by underscores. -/
def headerLineKey (k : List Char) : List Char :=
  (pyStrip (k.map asciiLower)).map (fun c => if c = ' ' then '_' else c)

/-- The body of the parsing loop of lines 58-63, one line at a time. -/
def parseHeaderLines (m : List (List Char × List Char)) :
    List (List Char) → Option (List (List Char × List Char))
  | [] => some m
  | line :: rest =>
    match splitFirstColon line with
    | none => none
    | some (k, v) => parseHeaderLines (dictInsert m (headerLineKey k) (pyStrip v)) rest

/-- The parsing part of `get_elf_headers`: drop the first line of the stdout
text, then run the key/value loop. -/
def parseElfHeaders (stdout : List Char) : Option (List (List Char × List Char)) :=
  parseHeaderLines [] (pySplitlines stdout).tail

/-- The key transformation as claim C7 words it: lower-cased with spaces
replaced by underscores — with no stripping of surrounding whitespace. -/
def headerLineKeyClaimed (k : List Char) : List Char :=
  (k.map asciiLower).map (fun c => if c = ' ' then '_' else c)

/-- The parser as claim C7 words it, with `headerLineKeyClaimed`. -/
def parseHeaderLinesClaimed (m : List (List Char × List Char)) :
    List (List Char) → Option (List (List Char × List Char))
  | [] => some m
  | line :: rest =>
    match splitFirstColon line with
    | none => none
    | some (k, v) =>
      parseHeaderLinesClaimed (dictInsert m (headerLineKeyClaimed k) (pyStrip v)) rest

/-- The claim-side parser over a whole stdout text. -/
def parseElfHeadersClaimed (stdout : List Char) : Option (List (List Char × List Char)) :=
  parseHeaderLinesClaimed [] (pySplitlines stdout).tail

/-- C7 counterexample: on the realistic dump text
`"ELF Header:\n  Machine: ARM"` (the key carries the leading spaces readelf
prints) the code maps the key to `machine`, while the transformation stated
in the claim — lower-casing and replacing spaces by underscores, with no
strip — would map it to `__machine`; the two parses differ. -/
theorem c7_key_not_stripped_counterexample :
    parseElfHeaders (("ELF Header:\n  Machine: ARM").data) =
      some [(("machine").data, ("ARM").data)] ∧
    parseElfHeadersClaimed (("ELF Header:\n  Machine: ARM").data) =
      some [(("__machine").data, ("ARM").data)] ∧
    parseElfHeaders (("ELF Header:\n  Machine: ARM").data) ≠
      parseElfHeadersClaimed (("ELF Header:\n  Machine: ARM").data) := by
  refine ⟨by decide, by decide, by decide⟩

/-- The amended description of the parser: a two-pass functional
formulation.  Parsing succeeds exactly when every line after the first
contains a colon, and then the mapping is the left fold of
overwrite-inserts, the key being the before-colon text lower-cased,
stripped, with spaces replaced by underscores, the value being the
after-colon text trimmed. -/
def parseElfHeadersAmended (stdout : List Char) : Option (List (List Char × List Char)) :=
  if ((pySplitlines stdout).tail).all (fun line => (splitFirstColon line).isSome) then
    some (((pySplitlines stdout).tail).foldl
      (fun m line =>
        match splitFirstColon line with
        | some (k, v) => dictInsert m (headerLineKey k) (pyStrip v)
        | none => m) [])
  else none

theorem parseHeaderLines_eq_amended (lines : List (List Char)) :
    ∀ m : List (List Char × List Char),
      parseHeaderLines m lines =
        if lines.all (fun line => (splitFirstColon line).isSome) then
          some (lines.foldl
            (fun m line =>
              match splitFirstColon line with
              | some (k, v) => dictInsert m (headerLineKey k) (pyStrip v)
              | none => m) m)
        else none := by
  induction lines with
  | nil => intro m; rfl
  | cons line rest ih =>
    intro m
    cases hc : splitFirstColon line with
    | none =>
      have h1 : parseHeaderLines m (line :: rest) = none := by
        show (match splitFirstColon line with
          | none => none
          | some (k, v) => parseHeaderLines (dictInsert m (headerLineKey k) (pyStrip v)) rest) =
          none
        rw [hc]
      rw [h1, List.all_cons, hc]
      simp
    | some kv =>
      have h1 : parseHeaderLines m (line :: rest) =
          parseHeaderLines (dictInsert m (headerLineKey kv.1) (pyStrip kv.2)) rest := by
        show (match splitFirstColon line with
          | none => none
          | some (k, v) => parseHeaderLines (dictInsert m (headerLineKey k) (pyStrip v)) rest) =
          _
        rw [hc]
      rw [h1, ih, List.all_cons, hc]
      have h2 : (List.foldl
          (fun m line =>
            match splitFirstColon line with
            | some (k, v) => dictInsert m (headerLineKey k) (pyStrip v)
            | none => m) m (line :: rest)) =
          (List.foldl
            (fun m line =>
              match splitFirstColon line with
              | some (k, v) => dictInsert m (headerLineKey k) (pyStrip v)
              | none => m) (dictInsert m (headerLineKey kv.1) (pyStrip kv.2)) rest) := by
        rw [List.foldl_cons, hc]
      rw [← h2]
      simp

theorem alistLookup_map_overwrite {α : Type} (k : List Char) (v : α) :
    ∀ m : List (List Char × α), m.any (fun p => decide (p.1 = k)) = true →
      alistLookup (m.map (fun p => if p.1 = k then (k, v) else p)) k = some v := by
  intro m
  induction m with
  | nil => intro h; cases h
  | cons q rest ih =>
    intro h
    rw [List.map_cons]
    by_cases hq : q.1 = k
    · rw [if_pos hq]
      show (if k = k then some v else alistLookup (rest.map _) k) = some v
      rw [if_pos rfl]
    · rw [if_neg hq]
      show (if q.1 = k then some q.2 else alistLookup (rest.map _) k) = some v
      rw [if_neg hq]
      apply ih
      rcases List.any_eq_true.mp h with ⟨p, hp, hpk⟩
      rcases List.mem_cons.mp hp with he | hm
      · exact absurd (of_decide_eq_true (he ▸ hpk)) hq
      · exact List.any_eq_true.mpr ⟨p, hm, hpk⟩

theorem alistLookup_append_new {α : Type} (k : List Char) (v : α) :
    ∀ m : List (List Char × α), m.any (fun p => decide (p.1 = k)) = false →
      alistLookup (m ++ [(k, v)]) k = some v := by
  intro m
  induction m with
  | nil =>
    intro _
    show (if k = k then some v else none) = some v
    rw [if_pos rfl]
  | cons q rest ih =>
    intro h
    rw [List.any_cons] at h
    rcases Bool.or_eq_false_iff.mp h with ⟨h1, h2⟩
    have hq : ¬ q.1 = k := of_decide_eq_false h1
    show (if q.1 = k then some q.2 else alistLookup (rest ++ [(k, v)]) k) = some v
    rw [if_neg hq]
    exact ih h2

theorem alistLookup_map_overwrite_other {α : Type} (k kq : List Char) (v : α)
    (hne : kq ≠ k) :
    ∀ m : List (List Char × α),
      alistLookup (m.map (fun p => if p.1 = k then (k, v) else p)) kq =
        alistLookup m kq := by
  intro m
  induction m with
  | nil => rfl
  | cons q rest ih =>
    rw [List.map_cons]
    by_cases hq : q.1 = k
    · rw [if_pos hq]
      show (if k = kq then some v else alistLookup (rest.map _) kq) =
        (if q.1 = kq then some q.2 else alistLookup rest kq)
      rw [if_neg (fun he => hne he.symm), if_neg (fun he => hne ((hq.symm.trans he).symm))]
      exact ih
    · rw [if_neg hq]
      show (if q.1 = kq then some q.2 else alistLookup (rest.map _) kq) =
        (if q.1 = kq then some q.2 else alistLookup rest kq)
      by_cases hqq : q.1 = kq
      · rw [if_pos hqq, if_pos hqq]
      · rw [if_neg hqq, if_neg hqq]
        exact ih

theorem alistLookup_append_other {α : Type} (k kq : List Char) (v : α)
    (hne : kq ≠ k) :
    ∀ m : List (List Char × α),
      alistLookup (m ++ [(k, v)]) kq = alistLookup m kq := by
  intro m
  induction m with
  | nil =>
    show (if k = kq then some v else none) = none
    rw [if_neg (fun he => hne he.symm)]
  | cons q rest ih =>
    show (if q.1 = kq then some q.2 else alistLookup (rest ++ [(k, v)]) kq) =
      (if q.1 = kq then some q.2 else alistLookup rest kq)
    by_cases hqq : q.1 = kq
    · rw [if_pos hqq, if_pos hqq]
    · rw [if_neg hqq, if_neg hqq]
      exact ih

theorem dictInsert_lookup_same {α : Type} (m : List (List Char × α)) (k : List Char)
    (v : α) : alistLookup (dictInsert m k v) k = some v := by
  unfold dictInsert
  by_cases h : m.any (fun p => decide (p.1 = k)) = true
  · rw [if_pos h]
    exact alistLookup_map_overwrite k v m h
  · rw [if_neg h]
    exact alistLookup_append_new k v m (Bool.eq_false_iff.mpr h)

theorem dictInsert_lookup_other {α : Type} (m : List (List Char × α)) (k kq : List Char)
    (v : α) (hne : kq ≠ k) : alistLookup (dictInsert m k v) kq = alistLookup m kq := by
  unfold dictInsert
  by_cases h : m.any (fun p => decide (p.1 = k)) = true
  · rw [if_pos h]
    exact alistLookup_map_overwrite_other k kq v hne m
  · rw [if_neg h]
    exact alistLookup_append_other k kq v hne m

/-- C7 (amended): the parser ignores the first line and maps each subsequent
line by splitting on the first colon; the key is the before-colon text
lower-cased, stripped of surrounding whitespace, then with spaces replaced
by underscores; the value is the after-colon text trimmed; a line without a
colon is a parse failure; later lines with an equal key overwrite earlier
ones. -/
theorem c7_header_parse_amended (stdout : List Char) :
    parseElfHeaders stdout = parseElfHeadersAmended stdout ∧
    (∀ (m : List (List Char × List Char)) (k v : List Char),
      alistLookup (dictInsert m k v) k = some v) ∧
    (∀ (m : List (List Char × List Char)) (k kq v : List Char), kq ≠ k →
      alistLookup (dictInsert m k v) kq = alistLookup m kq) := by
  refine ⟨?_, ?_, ?_⟩
  · unfold parseElfHeaders parseElfHeadersAmended
    exact parseHeaderLines_eq_amended _ []
  · intro m k v
    exact dictInsert_lookup_same m k v
  · intro m k kq v h
    exact dictInsert_lookup_other m k kq v h

/-- Witness for C7: on a realistic two-field dump the source parser agrees
with the amended description, and overwrite/lookup behave as stated on
concrete dictionaries. -/
theorem c7_header_parse_amended_witness :
    parseElfHeaders (("ELF Header:\n  Machine: ARM\n  Entry point address: 0x2000000").data) =
      parseElfHeadersAmended
        (("ELF Header:\n  Machine: ARM\n  Entry point address: 0x2000000").data) ∧
    alistLookup (dictInsert [((("a").data), (("1").data))] (("b").data) (("2").data))
        (("a").data) =
      alistLookup [((("a").data), (("1").data))] (("a").data) := by
  exact ⟨(c7_header_parse_amended
      (("ELF Header:\n  Machine: ARM\n  Entry point address: 0x2000000").data)).1,
    (c7_header_parse_amended []).2.2 [((("a").data), (("1").data))] (("b").data)
      (("a").data) (("2").data) (by decide)⟩

/-! Model of the process-level behaviour of the tool: `get_tool_prefix`
(lines 22-32, run at import time before `main`), and `main` (lines 92-191).
External tools are part of the environment: `readelfOut p` is the stdout of
`readelf -h p` (`none` models a nonzero exit, which `subprocess.run` with
`check=True` turns into an unhandled `CalledProcessError`), `objcopyOut p`
is the flat binary `read_from_elf` obtains for `p` (`none` models a failed
`objcopy`), `ndstoolOk` tells whether the final `ndstool` invocation exits
zero, and `which` models `shutil.which`.  `config` is the parsed
`ndspacker.toml` table (`none` when the file is absent; only string values
are modelled, which covers every configuration the tool consumes).  The
model returns the `Outcome` of the process together with the list of
external tool invocations performed, in program order. -/

/-- Fixed built-in defaults of lines 13-17. -/
def DEFAULT_PACKER_SETTINGS : List (List Char × List Char) :=
  [((("maker_code").data), (("01").data)),
   ((("game_code").data), (("ENAE").data)),
   ((("game_title").data), (("NDSPACKER").data))]

/-- Tool-prefix probing of lines 22-29: the `arm-none-eabi-` variant is
checked first, then the `llvm-` variant; neither found is a
`FileNotFoundError`. -/
def get_tool_prefix_fn (which : List Char → Bool) : Except (List Char) (List Char) :=
  if which (("arm-none-eabi-readelf").data) then Except.ok (("arm-none-eabi-").data)
  else if which (("llvm-readelf").data) then Except.ok (("llvm-").data)
  else Except.error (("FileNotFoundError").data)

/-- One external tool invocation, with the data the tool receives.  For the
`ndstool` invocation the two blobs are the bytes written to the two
temporary files passed via `-9`/`-7`, the entrypoints are the `-e9`/`-e7`
values, and the metadata strings are the `-g` arguments in source order
(game code, maker code, game title). -/
inductive Invocation where
  | readelf (tool path : List Char)
  | objcopy (tool path : List Char)
  | ndstool (arm9ep arm7ep : Int) (arm9data arm7data : List Nat)
      (gameCode makerCode gameTitle : List Char)
deriving DecidableEq

def Invocation.isNdstool : Invocation → Bool
  | .ndstool .. => true
  | _ => false

def Invocation.isObjcopy : Invocation → Bool
  | .objcopy .. => true
  | _ => false

/-- How the process ends: `sys.exit(code)`, normal completion, or an
unhandled exception (tagged by the Python exception type). -/
inductive Outcome where
  | exited (code : Nat)
  | finished
  | crashed (exc : List Char)
deriving DecidableEq

/-- The environment a run executes in; see the section comment. -/
structure Env where
  argv : List (List Char)
  files : List (List Char × List Nat)
  config : Option (List (List Char × List Char))
  readelfOut : List Char → Option (List Char)
  objcopyOut : List Char → Option (List Nat)
  ndstoolOk : Bool
  which : List Char → Bool

/-- Existence check `Path(p).exists()`, against the environment files. -/
def fileExists (env : Env) (p : List Char) : Bool :=
  (alistLookup env.files p).isSome

/-- `PurePosixPath(p).name`: the last component, with empty and `.`
components dropped as pathlib normalization does. -/
def pathName (p : List Char) : List Char :=
  ((p.splitOn '/').filter (fun comp => decide (comp ≠ [] ∧ comp ≠ ['.']))).getLastD []

/-- `PurePosixPath(p).suffix`: the final extension including its dot; empty
when the name has no dot, starts with its only dot, or ends with a dot. -/
def pathSuffix (p : List Char) : List Char :=
  match (pathName p).reverse.findIdx? (fun c => decide (c = '.')) with
  | none => []
  | some j =>
    if 0 < (pathName p).length - 1 - j ∧ ((pathName p).length - 1 - j) + 1 < (pathName p).length
    then (pathName p).drop ((pathName p).length - 1 - j)
    else []

/-- Lines 117-126: read the ARM9 headers via `readelf`, require machine type
`ARM` (else `sys.exit(1)`), extract the entrypoint from the
`entry_point_address` value with `[2:]` and base-16 parsing, then extract
the flat binary via `objcopy` (`read_from_elf`).  Returns the entrypoint
and binary, or the outcome that ends the run, plus the invocations made. -/
def acquireArm9 (pre : List Char) (env : Env) (arm9_image : List Char) :
    Except Outcome (Int × List Nat) × List Invocation :=
  match env.readelfOut arm9_image with
  | none => (Except.error (Outcome.crashed (("CalledProcessError").data)),
      [Invocation.readelf (pre ++ (("readelf").data)) arm9_image])
  | some out =>
    match parseElfHeaders out with
    | none => (Except.error (Outcome.crashed (("ValueError").data)),
        [Invocation.readelf (pre ++ (("readelf").data)) arm9_image])
    | some hdrs =>
      match alistLookup hdrs (("machine").data) with
      | none => (Except.error (Outcome.crashed (("KeyError").data)),
          [Invocation.readelf (pre ++ (("readelf").data)) arm9_image])
      | some mach =>
        if mach ≠ (("ARM").data) then
          (Except.error (Outcome.exited 1),
            [Invocation.readelf (pre ++ (("readelf").data)) arm9_image])
        else
          match alistLookup hdrs (("entry_point_address").data) with
          | none => (Except.error (Outcome.crashed (("KeyError").data)),
              [Invocation.readelf (pre ++ (("readelf").data)) arm9_image])
          | some v =>
            match arm9EntryOfValue v with
            | none => (Except.error (Outcome.crashed (("ValueError").data)),
                [Invocation.readelf (pre ++ (("readelf").data)) arm9_image])
            | some ep =>
              match env.objcopyOut arm9_image with
              | none => (Except.error (Outcome.crashed (("CalledProcessError").data)),
                  [Invocation.readelf (pre ++ (("readelf").data)) arm9_image,
                    Invocation.objcopy (pre ++ (("objcopy").data)) arm9_image])
              | some data =>
                (Except.ok (ep, data),
                  [Invocation.readelf (pre ++ (("readelf").data)) arm9_image,
                    Invocation.objcopy (pre ++ (("objcopy").data)) arm9_image])

/-- Lines 138-155: acquire the ARM7 entrypoint and blob.  No path: the
defaults `0x2380000` and the branch-to-self instruction bytes
`FE FF FF EA`.  A `.nds` path: `read_arm7_from_rom` on the file bytes.  Any
other path: `readelf` headers, the whole `entry_point_address` value parsed
in base 10, then `objcopy`. -/
def acquireArm7 (pre : List Char) (env : Env) (arm7_image : Option (List Char)) :
    Except Outcome (Int × List Nat) × List Invocation :=
  match arm7_image with
  | none => (Except.ok (0x2380000, [0xfe, 0xff, 0xff, 0xea]), [])
  | some p =>
    if pathSuffix p = ((".nds").data) then
      match alistLookup env.files p with
      | none => (Except.error (Outcome.crashed (("FileNotFoundError").data)), [])
      | some raw =>
        (Except.ok ((Int.ofNat (read_arm7_from_rom raw).1), (read_arm7_from_rom raw).2), [])
    else
      match env.readelfOut p with
      | none => (Except.error (Outcome.crashed (("CalledProcessError").data)),
          [Invocation.readelf (pre ++ (("readelf").data)) p])
      | some out =>
        match parseElfHeaders out with
        | none => (Except.error (Outcome.crashed (("ValueError").data)),
            [Invocation.readelf (pre ++ (("readelf").data)) p])
        | some hdrs =>
          match alistLookup hdrs (("entry_point_address").data) with
          | none => (Except.error (Outcome.crashed (("KeyError").data)),
              [Invocation.readelf (pre ++ (("readelf").data)) p])
          | some v =>
            match arm7EntryOfValue v with
            | none => (Except.error (Outcome.crashed (("ValueError").data)),
                [Invocation.readelf (pre ++ (("readelf").data)) p])
            | some ep =>
              match env.objcopyOut p with
              | none => (Except.error (Outcome.crashed (("CalledProcessError").data)),
                  [Invocation.readelf (pre ++ (("readelf").data)) p,
                    Invocation.objcopy (pre ++ (("objcopy").data)) p])
              | some data =>
                (Except.ok (ep, data),
                  [Invocation.readelf (pre ++ (("readelf").data)) p,
                    Invocation.objcopy (pre ++ (("objcopy").data)) p])

/-- The whole of `main` (lines 92-191): argv handling and existence checks
(exit 1 on failure), config loading (built-in defaults when the file is
absent), ARM9 processing, ARM7 processing, then the `ndstool` invocation
with the metadata from `packer_settings.get(...)` and its per-key
defaults. -/
def mainRun (pre : List Char) (env : Env) : Outcome × List Invocation :=
  match env.argv.get? 1 with
  | none => (Outcome.exited 1, [])
  | some arm9_image =>
    if fileExists env arm9_image = false then (Outcome.exited 1, [])
    else if (match env.argv.get? 2 with
        | some p => !(fileExists env p)
        | none => false) then (Outcome.exited 1, [])
    else
      match acquireArm9 pre env arm9_image with
      | (Except.error o, tr9) => (o, tr9)
      | (Except.ok a9, tr9) =>
        match acquireArm7 pre env (env.argv.get? 2) with
        | (Except.error o, tr7) => (o, tr9 ++ tr7)
        | (Except.ok a7, tr7) =>
          ((if env.ndstoolOk then Outcome.finished
            else Outcome.crashed (("CalledProcessError").data)),
            tr9 ++ tr7 ++ [Invocation.ndstool a9.1 a7.1 a9.2 a7.2
              (alistLookupD (match env.config with
                | none => DEFAULT_PACKER_SETTINGS
                | some t => t) (("game_code").data) (("ABCD").data))
              (alistLookupD (match env.config with
                | none => DEFAULT_PACKER_SETTINGS
                | some t => t) (("maker_code").data) (("01").data))
              (alistLookupD (match env.config with
                | none => DEFAULT_PACKER_SETTINGS
                | some t => t) (("game_title").data) (("NITRO-SDK").data))])

/-- The whole process: module import resolves the tool prefix first
(line 32); when no readelf variant exists the program dies there, before
any other work; otherwise `main` runs with the resolved prefix. -/
def programRun (env : Env) : Outcome × List Invocation :=
  match get_tool_prefix_fn env.which with
  | Except.error _ => (Outcome.crashed (("FileNotFoundError").data), [])
  | Except.ok pre => mainRun pre env

theorem acquireArm9_no_ndstool (pre : List Char) (env : Env) (p : List Char) :
    ∀ inv ∈ (acquireArm9 pre env p).2, inv.isNdstool = false := by
  intro inv hmem
  unfold acquireArm9 at hmem
  repeat' split at hmem
  all_goals simp only [List.mem_cons, List.not_mem_nil, or_false] at hmem
  all_goals rcases hmem with rfl | rfl <;> rfl

theorem acquireArm7_no_ndstool (pre : List Char) (env : Env) (p : Option (List Char)) :
    ∀ inv ∈ (acquireArm7 pre env p).2, inv.isNdstool = false := by
  intro inv hmem
  unfold acquireArm7 at hmem
  repeat' split at hmem
  all_goals simp only [List.mem_cons, List.not_mem_nil, or_false] at hmem
  all_goals rcases hmem with rfl | rfl <;> rfl

/-- Every `ndstool` invocation a run makes carries the metadata computed
from the effective settings table, and — when no ARM7 argument was given —
the default ARM7 entrypoint and blob. -/
theorem mainRun_ndstool_inv (pre : List Char) (env : Env)
    (e9 e7 : Int) (d9 d7 : List Nat) (gc mc gt : List Char)
    (hmem : Invocation.ndstool e9 e7 d9 d7 gc mc gt ∈ (mainRun pre env).2) :
    gc = alistLookupD (match env.config with
      | none => DEFAULT_PACKER_SETTINGS
      | some t => t) (("game_code").data) (("ABCD").data) ∧
    mc = alistLookupD (match env.config with
      | none => DEFAULT_PACKER_SETTINGS
      | some t => t) (("maker_code").data) (("01").data) ∧
    gt = alistLookupD (match env.config with
      | none => DEFAULT_PACKER_SETTINGS
      | some t => t) (("game_title").data) (("NITRO-SDK").data) ∧
    (env.argv.get? 2 = none → e7 = 0x2380000 ∧ d7 = [0xfe, 0xff, 0xff, 0xea]) := by
  unfold mainRun at hmem
  split at hmem
  · simp at hmem
  · rename_i arm9_image harm9
    split at hmem
    · simp at hmem
    · split at hmem
      · simp at hmem
      · split at hmem
        · rename_i o tr9 hsplit9
          exact absurd (acquireArm9_no_ndstool pre env arm9_image _ (by rw [hsplit9]; exact hmem))
            (by simp [Invocation.isNdstool])
        · rename_i a9 tr9 hsplit9
          split at hmem
          · rename_i o tr7 hsplit7
            simp only [List.mem_append] at hmem
            rcases hmem with h | h
            · exact absurd (acquireArm9_no_ndstool pre env arm9_image _ (by rw [hsplit9]; exact h))
                (by simp [Invocation.isNdstool])
            · exact absurd (acquireArm7_no_ndstool pre env (env.argv.get? 2) _
                (by rw [hsplit7]; exact h)) (by simp [Invocation.isNdstool])
          · rename_i a7 tr7 hsplit7
            simp only [List.mem_append, List.mem_cons, List.not_mem_nil, or_false] at hmem
            rcases hmem with (h | h) | h
            · exact absurd (acquireArm9_no_ndstool pre env arm9_image _ (by rw [hsplit9]; exact h))
                (by simp [Invocation.isNdstool])
            · exact absurd (acquireArm7_no_ndstool pre env (env.argv.get? 2) _
                (by rw [hsplit7]; exact h)) (by simp [Invocation.isNdstool])
            · rcases Invocation.ndstool.inj h with ⟨-, he7, -, hd7, hgc, hmc, hgt⟩
              refine ⟨hgc, hmc, hgt, ?_⟩
              intro hnone
              have h7 : acquireArm7 pre env (env.argv.get? 2) =
                  (Except.ok ((0x2380000 : Int), ([0xfe, 0xff, 0xff, 0xea] : List Nat)), []) := by
                rw [hnone]
                rfl
              rw [h7] at hsplit7
              rcases Prod.mk.inj hsplit7 with ⟨hok, -⟩
              rcases Except.ok.inj hok with ha7
              constructor
              · rw [he7, ← ha7]
              · rw [hd7, ← ha7]

/-- C3: whenever no ARM7 path argument is supplied, any packer (`ndstool`)
invocation the run performs receives ARM7 entrypoint 0x02380000 and, as the
ARM7 blob written to the temporary file, exactly the bytes FE FF FF EA. -/
theorem c3_arm7_defaults (pre : List Char) (env : Env)
    (hno7 : env.argv.get? 2 = none)
    (e9 e7 : Int) (d9 d7 : List Nat) (gc mc gt : List Char)
    (hmem : Invocation.ndstool e9 e7 d9 d7 gc mc gt ∈ (mainRun pre env).2) :
    e7 = 0x02380000 ∧ d7 = [0xfe, 0xff, 0xff, 0xea] :=
  (mainRun_ndstool_inv pre env e9 e7 d9 d7 gc mc gt hmem).2.2.2 hno7

/-- A successful sample environment: the ARM9 image exists, `readelf`
reports machine ARM with entrypoint 0x2000000, `objcopy` yields three
bytes, no ARM7 argument, no config file, no tool on the path for `which`. -/
def sampleEnv : Env where
  argv := [(("prog").data), (("arm9.elf").data)]
  files := [((("arm9.elf").data), [1])]
  config := none
  readelfOut := fun p =>
    if p = (("arm9.elf").data)
    then some (("ELF Header:\n  Machine: ARM\n  Entry point address: 0x2000000").data)
    else none
  objcopyOut := fun p => if p = (("arm9.elf").data) then some [1, 2, 3] else none
  ndstoolOk := true
  which := fun _ => false

/-- Witness for C3: in the sample environment with no ARM7 argument, the
run reaches `ndstool` with ARM7 entrypoint 0x02380000 and blob FE FF FF
EA. -/
theorem c3_arm7_defaults_witness :
    (0x02380000 : Int) = 0x02380000 ∧
    ([0xfe, 0xff, 0xff, 0xea] : List Nat) = [0xfe, 0xff, 0xff, 0xea] :=
  c3_arm7_defaults ((("arm-none-eabi-").data)) sampleEnv (by decide)
    0x2000000 0x02380000 [1, 2, 3] [0xfe, 0xff, 0xff, 0xea]
    (("ENAE").data) (("01").data) (("NDSPACKER").data) (by decide)

/-- C4 counterexample: the defaults differ between the two ways a key can be
missing.  With the config file absent the sample run passes metadata
(game code ENAE, maker 01, title NDSPACKER) from the built-in table; with a
present but empty config file — every key individually missing — it passes
(ABCD, 01, NITRO-SDK).  The claim says the defaults are the same in both
cases, which is false. -/
theorem c4_defaults_counterexample :
    sampleEnv.config = none ∧
    (mainRun ((("arm-none-eabi-").data)) sampleEnv).2 =
      [Invocation.readelf (("arm-none-eabi-readelf").data) (("arm9.elf").data),
       Invocation.objcopy (("arm-none-eabi-objcopy").data) (("arm9.elf").data),
       Invocation.ndstool 0x2000000 0x02380000 [1, 2, 3] [0xfe, 0xff, 0xff, 0xea]
         (("ENAE").data) (("01").data) (("NDSPACKER").data)] ∧
    (mainRun ((("arm-none-eabi-").data)) { sampleEnv with config := some [] }).2 =
      [Invocation.readelf (("arm-none-eabi-readelf").data) (("arm9.elf").data),
       Invocation.objcopy (("arm-none-eabi-objcopy").data) (("arm9.elf").data),
       Invocation.ndstool 0x2000000 0x02380000 [1, 2, 3] [0xfe, 0xff, 0xff, 0xea]
         (("ABCD").data) (("01").data) (("NITRO-SDK").data)] ∧
    ((("ENAE").data) ≠ (("ABCD").data) ∧ (("NDSPACKER").data) ≠ (("NITRO-SDK").data)) := by
  refine ⟨rfl, by decide, by decide, by decide⟩

/-- C4 (amended): when the config file is absent the run uses the built-in
table (maker 01, game code ENAE, title NDSPACKER) and raises no error; when
a config file is present, each key it defines overrides, and each key it
does not define falls back to the per-key defaults (maker 01, game code
ABCD, title NITRO-SDK) — a different default set than the built-in table
used for a wholly absent file. -/
theorem c4_config_defaults (pre : List Char) (env : Env)
    (e9 e7 : Int) (d9 d7 : List Nat) (gc mc gt : List Char)
    (hmem : Invocation.ndstool e9 e7 d9 d7 gc mc gt ∈ (mainRun pre env).2) :
    (env.config = none →
      mc = (("01").data) ∧ gc = (("ENAE").data) ∧ gt = (("NDSPACKER").data)) ∧
    (∀ t, env.config = some t →
      (mc = alistLookupD t (("maker_code").data) (("01").data) ∧
       gc = alistLookupD t (("game_code").data) (("ABCD").data) ∧
       gt = alistLookupD t (("game_title").data) (("NITRO-SDK").data)) ∧
      (∀ v, alistLookup t (("maker_code").data) = some v → mc = v) ∧
      (∀ v, alistLookup t (("game_code").data) = some v → gc = v) ∧
      (∀ v, alistLookup t (("game_title").data) = some v → gt = v)) := by
  obtain ⟨hgc, hmc, hgt, -⟩ := mainRun_ndstool_inv pre env e9 e7 d9 d7 gc mc gt hmem
  constructor
  · intro hc
    rw [hc] at hgc hmc hgt
    exact ⟨by rw [hmc]; rfl, by rw [hgc]; rfl, by rw [hgt]; rfl⟩
  · intro t hc
    rw [hc] at hgc hmc hgt
    refine ⟨⟨hmc, hgc, hgt⟩, ?_, ?_, ?_⟩
    · intro v hv
      rw [hmc]
      show (alistLookup t (("maker_code").data)).getD (("01").data) = v
      rw [hv]
      rfl
    · intro v hv
      rw [hgc]
      show (alistLookup t (("game_code").data)).getD (("ABCD").data) = v
      rw [hv]
      rfl
    · intro v hv
      rw [hgt]
      show (alistLookup t (("game_title").data)).getD (("NITRO-SDK").data) = v
      rw [hv]
      rfl

/-- Witness for C4 (amended): with a config defining only the game code,
the run passes the defined game code and the per-key defaults for the other
two. -/
theorem c4_config_defaults_witness :
    (("ZZZZ").data) = alistLookupD [((("game_code").data), (("ZZZZ").data))]
      (("game_code").data) (("ABCD").data) ∧
    (("01").data) = alistLookupD [((("game_code").data), (("ZZZZ").data))]
      (("maker_code").data) (("01").data) := by
  have h := c4_config_defaults ((("arm-none-eabi-").data))
    { sampleEnv with config := some [((("game_code").data), (("ZZZZ").data))] }
    0x2000000 0x02380000 [1, 2, 3] [0xfe, 0xff, 0xff, 0xea]
    (("ZZZZ").data) (("01").data) (("NITRO-SDK").data) (by decide)
  obtain ⟨⟨hm, hg, -⟩, -⟩ := h.2 [((("game_code").data), (("ZZZZ").data))] rfl
  exact ⟨hg, hm⟩

/-- C6: for every run whose ARM9 image has a parsed header dump with a
machine value different from ARM, the program terminates with exit code 1,
and neither `objcopy` nor `ndstool` is ever invoked. -/
theorem c6_non_arm_exit (pre : List Char) (env : Env) (arm9 out : List Char)
    (hdrs : List (List Char × List Char)) (mach : List Char)
    (h1 : env.argv.get? 1 = some arm9)
    (h2 : env.readelfOut arm9 = some out)
    (h3 : parseElfHeaders out = some hdrs)
    (h4 : alistLookup hdrs (("machine").data) = some mach)
    (h5 : mach ≠ (("ARM").data)) :
    (mainRun pre env).1 = Outcome.exited 1 ∧
    ∀ inv ∈ (mainRun pre env).2, inv.isObjcopy = false ∧ inv.isNdstool = false := by
  have ha9 : acquireArm9 pre env arm9 =
      (Except.error (Outcome.exited 1),
        [Invocation.readelf (pre ++ (("readelf").data)) arm9]) := by
    unfold acquireArm9
    simp only [h2, h3, h4]
    rw [if_pos h5]
  have hmain : mainRun pre env = (Outcome.exited 1, []) ∨
      mainRun pre env =
        (Outcome.exited 1, [Invocation.readelf (pre ++ (("readelf").data)) arm9]) := by
    unfold mainRun
    simp only [h1]
    by_cases hex : fileExists env arm9 = false
    · left
      rw [if_pos hex]
    · rw [if_neg hex]
      by_cases h7 : (match env.argv.get? 2 with
          | some p => !(fileExists env p)
          | none => false) = true
      · left
        rw [if_pos h7]
      · rw [if_neg h7, ha9]
        right
        rfl
  rcases hmain with h | h <;> rw [h]
  · exact ⟨rfl, by intro inv hmem; cases hmem⟩
  · refine ⟨rfl, ?_⟩
    intro inv hmem
    rcases List.mem_cons.mp hmem with rfl | hmem
    · exact ⟨rfl, rfl⟩
    · cases hmem

/-- The sample environment with an ARM9 whose machine type is RISC-V. -/
def sampleBadEnv : Env :=
  { sampleEnv with
    readelfOut := fun p =>
      if p = (("arm9.elf").data) then
        some (("ELF Header:\n  Machine: RISC-V\n  Entry point address: 0x0").data)
      else none }

/-- Witness for C6: a sample environment whose ARM9 reports machine RISC-V
exits with code 1 after only the `readelf` probe. -/
theorem c6_non_arm_exit_witness :
    (mainRun ((("arm-none-eabi-").data)) sampleBadEnv).1 = Outcome.exited 1 ∧
    ∀ inv ∈ (mainRun ((("arm-none-eabi-").data)) sampleBadEnv).2,
      inv.isObjcopy = false ∧ inv.isNdstool = false :=
  c6_non_arm_exit ((("arm-none-eabi-").data)) sampleBadEnv (("arm9.elf").data)
    (("ELF Header:\n  Machine: RISC-V\n  Entry point address: 0x0").data)
    [((("machine").data), (("RISC-V").data)),
     ((("entry_point_address").data), (("0x0").data))]
    (("RISC-V").data) (by decide) (by decide) (by decide) (by decide) (by decide)

/-- C8: the external-tool prefix probe checks the `arm-none-eabi-` variant
first and returns its prefix when present, falls back to the `llvm-`
variant, and when neither exists the whole program dies immediately at
startup with a tool-not-found error, before performing any invocation. -/
theorem c8_tool_probe :
    (∀ w : List Char → Bool, w (("arm-none-eabi-readelf").data) = true →
      get_tool_prefix_fn w = Except.ok (("arm-none-eabi-").data)) ∧
    (∀ w : List Char → Bool, w (("arm-none-eabi-readelf").data) = false →
      w (("llvm-readelf").data) = true →
      get_tool_prefix_fn w = Except.ok (("llvm-").data)) ∧
    (∀ w : List Char → Bool, w (("arm-none-eabi-readelf").data) = false →
      w (("llvm-readelf").data) = false →
      get_tool_prefix_fn w = Except.error (("FileNotFoundError").data)) ∧
    (∀ env : Env, env.which (("arm-none-eabi-readelf").data) = false →
      env.which (("llvm-readelf").data) = false →
      programRun env = (Outcome.crashed (("FileNotFoundError").data), [])) := by
  refine ⟨?_, ?_, ?_, ?_⟩
  · intro w h
    unfold get_tool_prefix_fn
    rw [if_pos h]
  · intro w h1 h2
    unfold get_tool_prefix_fn
    rw [if_neg (by rw [h1]; simp), if_pos h2]
  · intro w h1 h2
    unfold get_tool_prefix_fn
    rw [if_neg (by rw [h1]; simp), if_neg (by rw [h2]; simp)]
  · intro env h1 h2
    have he : get_tool_prefix_fn env.which = Except.error (("FileNotFoundError").data) := by
      unfold get_tool_prefix_fn
      rw [if_neg (by rw [h1]; simp), if_neg (by rw [h2]; simp)]
    unfold programRun
    rw [he]

/-- Witness for C8: concrete `which` predicates exercise all three probe
outcomes, and the sample environment (no tool available) dies at startup
with an empty invocation list. -/
theorem c8_tool_probe_witness :
    get_tool_prefix_fn (fun p => decide (p = (("arm-none-eabi-readelf").data))) =
      Except.ok (("arm-none-eabi-").data) ∧
    get_tool_prefix_fn (fun p => decide (p = (("llvm-readelf").data))) =
      Except.ok (("llvm-").data) ∧
    get_tool_prefix_fn (fun _ => false) = Except.error (("FileNotFoundError").data) ∧
    programRun sampleEnv = (Outcome.crashed (("FileNotFoundError").data), []) :=
  ⟨c8_tool_probe.1 _ (by decide),
   c8_tool_probe.2.1 _ (by decide) (by decide),
   c8_tool_probe.2.2.1 _ (by decide) (by decide),
   c8_tool_probe.2.2.2 sampleEnv (by decide) (by decide)⟩

/-! Model of the temporary-file lifecycle (the filesystem effect of the two
`tempfile.TemporaryDirectory()` blocks).  `mainRun` above models control
flow and tool invocations; these definitions model what the same code
regions do to the filesystem, an association list from path to contents. -/

/-- Writing a file: overwrite or create. -/
def fsWrite (fs : List (List Char × List Nat)) (path : List Char) (data : List Nat) :
    List (List Char × List Nat) :=
  dictInsert fs path data

/-- `TemporaryDirectory` cleanup on leaving the `with` block: every path
under the directory is removed. -/
def fsRemoveTree (fs : List (List Char × List Nat)) (dir : List Char) :
    List (List Char × List Nat) :=
  fs.filter (fun q => !(dir.isPrefixOf q.1))

/-- Filesystem effect of `read_from_elf` (lines 80-88): inside
`tempfile.TemporaryDirectory()` the `objcopy` output lands in `tdir/out.o`;
whether the invocation succeeds (`some` bytes) or raises (`none`, the
`CalledProcessError` propagating), leaving the `with` block removes the
directory tree.  Returns the outcome and the final filesystem. -/
def read_from_elf (objcopyResult : Option (List Nat)) (fs : List (List Char × List Nat))
    (tdir : List Char) : Except (List Char) (List Nat) × List (List Char × List Nat) :=
  match objcopyResult with
  | none => (Except.error (("CalledProcessError").data), fsRemoveTree fs tdir)
  | some bytes =>
    (Except.ok bytes, fsRemoveTree (fsWrite fs (tdir ++ (("/out.o").data)) bytes) tdir)

/-- Filesystem effect of the packer block (lines 164-181): the two blobs
are written into the scoped temporary directory, `ndstool` runs (writing
`./rom.nds` with bytes `romOut` on success, raising on failure), and
leaving the `with` block removes the directory tree either way. -/
def packInvokeStep (ndstoolOk : Bool) (fs : List (List Char × List Nat))
    (tdir : List Char) (arm9data arm7data romOut : List Nat) :
    Except (List Char) Unit × List (List Char × List Nat) :=
  let fs2 := fsWrite (fsWrite fs (tdir ++ (("/arm9.tmp.bin").data)) arm9data)
    (tdir ++ (("/arm7.tmp.bin").data)) arm7data
  if ndstoolOk then
    (Except.ok (), fsRemoveTree (fsWrite fs2 (("./rom.nds").data) romOut) tdir)
  else
    (Except.error (("CalledProcessError").data), fsRemoveTree fs2 tdir)

/-- C9: after either temporary-file-creating operation returns — the
`objcopy` extraction writing `tdir/out.o`, and the packer block writing the
two saved blob files — no path under the scoped temporary directory exists,
on the success path and on every error path alike. -/
theorem c9_temp_files_removed (objRes : Option (List Nat))
    (fs : List (List Char × List Nat)) (tdir : List Char) (ok : Bool)
    (d9 d7 romOut : List Nat) :
    (∀ q ∈ (read_from_elf objRes fs tdir).2, tdir.isPrefixOf q.1 = false) ∧
    (∀ q ∈ (packInvokeStep ok fs tdir d9 d7 romOut).2, tdir.isPrefixOf q.1 = false) := by
  constructor
  · intro q hq
    cases objRes <;>
      · simp only [read_from_elf, fsRemoveTree] at hq
        rcases List.mem_filter.mp hq with ⟨-, hp⟩
        simpa using hp
  · intro q hq
    simp only [packInvokeStep, fsRemoveTree] at hq
    split at hq <;>
      · rcases List.mem_filter.mp hq with ⟨-, hp⟩
        simpa using hp

/-- Witness for C9: in a concrete run the file outside the temporary
directory survives while the temporary output file is gone on the success
path of the extraction, and the saved ARM7 blob file is gone on the failure
path of the packer block. -/
theorem c9_temp_files_removed_witness :
    ((("/tmp/x").data).isPrefixOf (("/a").data)) = false ∧
    alistLookup (read_from_elf (some [9]) [((("/a").data), [5])] (("/tmp/x").data)).2
      (("/tmp/x/out.o").data) = none ∧
    alistLookup (packInvokeStep false [] (("/tmp/x").data) [1] [2] [3]).2
      (("/tmp/x/arm7.tmp.bin").data) = none := by
  have h := c9_temp_files_removed (some [9]) [((("/a").data), [5])] (("/tmp/x").data)
    false [1] [2] [3]
  exact ⟨h.1 ((("/a").data), [5]) (by decide), by decide, by decide⟩

/-- Witness for C2: a 3-byte input (far shorter than the 0x40-byte header)
yields entrypoint 0 and an empty blob, with no error. -/
theorem c2_read_arm7_total_witness :
    (read_arm7_from_rom [1, 2, 3]).1 = 0 ∧ (read_arm7_from_rom [1, 2, 3]).2.length = 0 := by
  have h := c2_read_arm7_total [1, 2, 3]
  refine ⟨h.2.1 (by norm_num), ?_⟩
  rw [h.2.2.1]
  decide

end Ndspacker
